import Mathlib

/-
Verification of the MythicBot guild-configuration / warning-ledger core.

The definitions below are a shallow embedding of the Python sources:
  * utils/duration_parser.py   (parse_duration)
  * utils/config_manager.py    (get_config default document, per-guild lock)
  * cogs/moderation.py         (warn, clearwarns, _check_moderation_permissions)

Python dicts are modelled as association lists with unique keys, machine
integers as Int/Nat (Python ints are unbounded), datetime.timedelta values
as a number of seconds (Nat), and fallible operations as Option.
-/

namespace MythicBot

/-- A single warning record, as built by the warn command
(cogs/moderation.py lines 458-463): the Unix timestamp doubles as the id. -/
structure WarningEntry where
  moderator_id : Nat
  reason : String
  timestamp : Int
  id : Int
deriving DecidableEq, Repr

/-- Lookup in a Python-dict model (first matching key). -/
def dictGet {α : Type} : List (String × α) → String → Option α
  | [], _ => none
  | (k', v) :: rest, k => if k' = k then some v else dictGet rest k

/-- Assignment d[k] = v in a Python-dict model: replace in place, else append. -/
def dictSet {α : Type} : List (String × α) → String → α → List (String × α)
  | [], k, v => [(k, v)]
  | (k', v') :: rest, k, v =>
      if k' = k then (k, v) :: rest else (k', v') :: dictSet rest k v

/-- Deletion del d[k] in a Python-dict model. -/
def dictDel {α : Type} : List (String × α) → String → List (String × α)
  | [], _ => []
  | (k', v') :: rest, k =>
      if k' = k then dictDel rest k else (k', v') :: dictDel rest k

/-- The per-guild configuration document, with exactly the keys of the
default structure produced by get_config (utils/config_manager.py 34-46). -/
structure GuildConfig where
  log_channel : Option Nat
  welcome_channel : Option Nat
  leave_channel : Option Nat
  verified_role : Option Nat
  mod_log_channel : Option Nat
  welcome_message : String
  leave_message : String
  warnings : List (String × List WarningEntry)
  warn_threshold : Int
  warn_action : String
  warn_timeout_duration : String
deriving DecidableEq, Repr

/-- The default configuration document returned by get_config when the
guild's file is missing or fails to parse (utils/config_manager.py 34-46). -/
def default_config : GuildConfig where
  log_channel := none
  welcome_channel := none
  leave_channel := none
  verified_role := none
  mod_log_channel := none
  welcome_message := "Welcome \x7buser.mention\x7d to \x7bserver.name\x7d!"
  leave_message := "\x7buser.name\x7d has left \x7bserver.name\x7d."
  warnings := []
  warn_threshold := 3
  warn_action := "timeout"
  warn_timeout_duration := "1h"

/-- Outcome of attempting to open, decode and parse a guild's persisted
file inside the try block of get_config (utils/config_manager.py 29-31):
the file can be absent (FileNotFoundError), its bytes can be valid UTF-8
but invalid JSON (json.JSONDecodeError), its bytes can fail UTF-8
decoding under the encoding given to open (UnicodeDecodeError), or the
document parses. -/
inductive ConfigReadResult
  | fileMissing
  | decodeError
  | unicodeError
  | ok (cfg : GuildConfig)
deriving DecidableEq

/-- An exception that escapes get_config uncaught: its except clause
(utils/config_manager.py 32) names only FileNotFoundError and
json.JSONDecodeError, and UnicodeDecodeError is a subclass of neither. -/
inductive PyExn
  | unicodeDecodeError
deriving DecidableEq

/-- get_config (utils/config_manager.py 22-46): returns the parsed
document, degrades to the default document on FileNotFoundError or
json.JSONDecodeError, and lets a UnicodeDecodeError from a non-UTF-8 file
propagate out of the function uncaught. -/
def get_config : ConfigReadResult → Except PyExn GuildConfig
  | .ok cfg => .ok cfg
  | .fileMissing => .ok default_config
  | .decodeError => .ok default_config
  | .unicodeError => .error .unicodeDecodeError

/- ---------------- Duration parser (utils/duration_parser.py) ---------------- -/

/-- ASCII lowercase of one character, modelling str.lower() on the
characters the parser cares about. -/
def lowerChar (c : Char) : Char :=
  if 'A' ≤ c ∧ c ≤ 'Z' then Char.ofNat (c.toNat + 32) else c

/-- str.lower() on a string, character by character. -/
def lowerStr (s : String) : String := ⟨s.data.map lowerChar⟩

/-- Numeric value of a run of ASCII digits, modelling int(group(1)). -/
def digitsToNat (ds : List Char) : Nat :=
  ds.foldl (fun acc c => acc * 10 + (c.toNat - '0'.toNat)) 0

/-- Membership in the regex character class of units. -/
def isUnitChar (c : Char) : Bool :=
  c = 's' || c = 'm' || c = 'h' || c = 'd'

/-- Models re.match applied to the raw pattern of one-or-more digits
captured as group 1, one unit character from the class s m h d as group 2,
then the end anchor (utils/duration_parser.py 14). Python's digit class
without the ASCII flag matches any Unicode decimal digit, so the digit
predicate dig is a parameter; parse_duration instantiates it with the
ASCII Char.isDigit, which coincides with the Python class on ASCII input.
Python's end anchor matches at the end of the string and also just before
a single trailing newline, so a lone trailing newline is accepted by the
regex engine. Greedy capture of the digit run is exact whenever no unit
character is a digit, which holds for every Unicode digit class since the
four unit letters are not digits. -/
def matchDurationRegex (dig : Char → Bool) (cs : List Char) :
    Option (List Char × Char × List Char) :=
  let ds := cs.takeWhile dig
  match cs.dropWhile dig with
  | [] => none
  | u :: tail =>
      if ds.isEmpty then none
      else if isUnitChar u && (tail.isEmpty || tail = ['\n']) then some (ds, u, tail)
      else none

/-- Seconds per unit, modelling the if/elif chain building the timedelta
(utils/duration_parser.py 27-36); an unknown unit yields the defensive
final else branch. -/
def unitSeconds (u : Char) : Option Nat :=
  if u = 's' then some 1
  else if u = 'm' then some 60
  else if u = 'h' then some 3600
  else if u = 'd' then some 86400
  else none

/-- parse_duration (utils/duration_parser.py 5-42), with the timedelta
result as a number of seconds. The input is lowercased, matched against
the regex, the magnitude must be positive, and the result must not exceed
28 days = 2419200 seconds. -/
def parse_duration (s : String) : Option Nat :=
  let cs := s.data.map lowerChar
  match matchDurationRegex Char.isDigit cs with
  | none => none
  | some (ds, u, _) =>
      let value := digitsToNat ds
      if value ≤ 0 then none
      else
        match unitSeconds u with
        | none => none
        | some k =>
            let delta := value * k
            if 2419200 < delta then none else some delta

/-- Whether the format gate of parse_duration (the regex match at
utils/duration_parser.py 14-16) accepts the input string, with the digit
class instantiated at ASCII digits. -/
def durationFormatAccepted (s : String) : Bool :=
  (matchDurationRegex Char.isDigit (s.data.map lowerChar)).isSome

/- ---------------- Warning ledger (cogs/moderation.py, warn command) ---------------- -/

/-- The warning-adding core of the warn command (cogs/moderation.py 453-480):
build the entry with id = timestamp = now, append it to the user's list
(creating the list if absent), and report the user's new total count.
The isinstance guards of lines 466-473 are vacuous in this typed model. -/
def addWarning (cfg : GuildConfig) (user_id_str : String) (moderator_id : Nat)
    (reason : String) (now : Int) : GuildConfig × Nat :=
  let entry : WarningEntry :=
    { moderator_id := moderator_id, reason := reason, timestamp := now, id := now }
  let prev := (dictGet cfg.warnings user_id_str).getD []
  let newList := prev ++ [entry]
  ({ cfg with warnings := dictSet cfg.warnings user_id_str newList }, newList.length)

/-- The auto-action trigger condition evaluated right after a warning is
saved (cogs/moderation.py 505-509): threshold positive, new count at or
above the threshold, and the lowercased configured action not "none". -/
def autoActionTriggered (cfg : GuildConfig) (warnings_count : Nat) : Bool :=
  let threshold := cfg.warn_threshold
  let action := lowerStr cfg.warn_action
  decide (0 < threshold) && decide (threshold ≤ (warnings_count : Int)) &&
    decide (action ≠ "none")

/-- One execution of the warn command's state change and auto-action
evaluation (cogs/moderation.py 451-511): add the warning, then evaluate
the trigger condition on the new count. Returns the updated configuration,
the new count, and whether the automatic action fires. -/
def warnCommand (cfg : GuildConfig) (user_id_str : String) (moderator_id : Nat)
    (reason : String) (now : Int) : GuildConfig × Nat × Bool :=
  let (cfg', count) := addWarning cfg user_id_str moderator_id reason now
  (cfg', count, autoActionTriggered cfg' count)

/- ---------------- clearwarns command (cogs/moderation.py 621-694) ---------------- -/

/-- The warning_ref argument of clearwarns after the command's own
interpretation: the word all (lowercased comparison, line 644), a numeric
id accepted by int() (line 652), or anything else (the ValueError branch,
line 669). -/
inductive WarnRef
  | all
  | byId (t : Int)
  | invalid
deriving DecidableEq

/-- The observable outcome of clearwarns, one constructor per reply path of
cogs/moderation.py 637-672. -/
inductive ClearResult
  | noWarnings
  | clearedAll (n : Nat)
  | clearedId (n : Nat)
  | notFound (t : Int)
  | invalidInput
deriving DecidableEq, Repr

/-- clearwarns (cogs/moderation.py 621-694): with no warnings for the user
it replies and changes nothing; with all it deletes the user's entry and
reports the prior length; with a numeric id it keeps exactly the records
whose id differs from the target, deletes the user's entry when the
remainder is empty, and reports not-found (changing nothing) when no
record matched. -/
def clearwarns (cfg : GuildConfig) (user_id_str : String) (ref : WarnRef) :
    GuildConfig × ClearResult :=
  let user_warnings := (dictGet cfg.warnings user_id_str).getD []
  if user_warnings = [] then (cfg, .noWarnings)
  else
    match ref with
    | .all =>
        ({ cfg with warnings := dictDel cfg.warnings user_id_str },
         .clearedAll user_warnings.length)
    | .byId t =>
        let new_warnings := user_warnings.filter (fun w => w.id != t)
        let cleared := user_warnings.length - new_warnings.length
        if 0 < cleared then
          if new_warnings = [] then
            ({ cfg with warnings := dictDel cfg.warnings user_id_str }, .clearedId cleared)
          else
            ({ cfg with warnings := dictSet cfg.warnings user_id_str new_warnings },
             .clearedId cleared)
        else (cfg, .notFound t)
    | .invalid => (cfg, .invalidInput)

/-- Whether clearwarns calls save_config: only when cleared_count is
positive (cogs/moderation.py 675-676); the not-found and error paths
return before the save. -/
def clearwarnsSaves : ClearResult → Bool
  | .clearedAll _ => true
  | .clearedId _ => true
  | _ => false

/- ------------- Moderation eligibility (cogs/moderation.py 84-121) ------------- -/

/-- A guild member as the eligibility check sees it: identity plus the
position of the highest role. -/
structure MemberM where
  userId : Nat
  topRolePos : Int
deriving DecidableEq

/-- The ambient data of one invocation: the invoking author, the guild
owner's identity, the bot's own top-role position, and the identities the
chat client recognises as bot owners. -/
structure ModerationCtx where
  author : MemberM
  guildOwnerId : Nat
  botTopRolePos : Int
  botOwnerIds : List Nat
deriving DecidableEq

/-- The four rejection reasons of the eligibility check, one per error
message of cogs/moderation.py 92, 97, 107, 112. -/
inductive RejectReason
  | selfModeration
  | botOwnerTarget
  | botHierarchy
  | moderatorHierarchy
deriving DecidableEq, Repr

/-- The decision core of _check_moderation_permissions
(cogs/moderation.py 84-121): the first failing check wins, none means the
action is allowed. Check 4 is waived when the author is the guild owner. -/
def checkModerationPermissions (ctx : ModerationCtx) (member : MemberM) :
    Option RejectReason :=
  if member.userId = ctx.author.userId then some .selfModeration
  else if ctx.botOwnerIds.contains member.userId then some .botOwnerTarget
  else if ctx.botTopRolePos ≤ member.topRolePos then some .botHierarchy
  else if ctx.author.userId ≠ ctx.guildOwnerId ∧ ctx.author.topRolePos ≤ member.topRolePos
    then some .moderatorHierarchy
  else none

/-- The same four checks as a list of condition-reason pairs, in source
order, for reasoning about reordering. -/
def moderationChecklist (ctx : ModerationCtx) (member : MemberM) :
    List (Bool × RejectReason) :=
  [ (decide (member.userId = ctx.author.userId), .selfModeration),
    (ctx.botOwnerIds.contains member.userId, .botOwnerTarget),
    (decide (ctx.botTopRolePos ≤ member.topRolePos), .botHierarchy),
    (decide (ctx.author.userId ≠ ctx.guildOwnerId) &&
       decide (ctx.author.topRolePos ≤ member.topRolePos), .moderatorHierarchy) ]

/-- Run a checklist: the reason of the first check whose condition holds,
none when every condition is false. -/
def firstFailing : List (Bool × RejectReason) → Option RejectReason
  | [] => none
  | (c, r) :: rest => if c then some r else firstFailing rest

/- ------------- Concurrency model of the warn read-modify-write ------------- -/

/-- One in-flight warn invocation: whether its read-modify-write has run. -/
structure WarnTask where
  done : Bool
deriving DecidableEq

/-- The parameters one warn invocation carries. -/
structure WarnParams where
  user : String
  moderator_id : Nat
  reason : String
  now : Int

/-- One step of a warn invocation against the persisted store: the whole
read-modify-write of warn (moderation.py 451-477) runs as a single atomic
transition. Under the cooperative asyncio scheduler a task switch needs an
await that actually suspends, and none in this window does: acquiring the
per-guild lock of utils/config_manager.py takes the synchronous fast path
because the lock is never held across a suspension and hence never
contended, the file reads and writes inside get_config and save_config are
plain blocking calls rather than awaited futures, and the awaited helper
between them returns without suspending. So the second invocation's
get_config cannot begin before the first invocation's save_config has
completed. -/
def warnTaskStep (p : WarnParams) (store : GuildConfig) (t : WarnTask) :
    GuildConfig × WarnTask :=
  if t.done then (store, t)
  else ((addWarning store p.user p.moderator_id p.reason p.now).1, { done := true })

/-- Two concurrent warn invocations over one guild's store. -/
structure WarnPairState where
  store : GuildConfig
  taskA : WarnTask
  taskB : WarnTask
deriving DecidableEq

/-- Advance the task the scheduler picks (false = A, true = B). -/
def warnPairStep (pA pB : WarnParams) (s : WarnPairState) (pick : Bool) :
    WarnPairState :=
  if pick then
    let (st, tB) := warnTaskStep pB s.store s.taskB
    { s with store := st, taskB := tB }
  else
    let (st, tA) := warnTaskStep pA s.store s.taskA
    { s with store := st, taskA := tA }

/-- Run a schedule (an arbitrary interleaving of the two invocations). -/
def runWarnPair (pA pB : WarnParams) (sched : List Bool) (s : WarnPairState) :
    WarnPairState :=
  sched.foldl (warnPairStep pA pB) s

/-- Both tasks start before their read, with the shared store as given. -/
def initialWarnPair (cfg : GuildConfig) : WarnPairState :=
  { store := cfg, taskA := { done := false }, taskB := { done := false } }

/-- The number of warnings the persisted store holds for a user. -/
def warningCount (cfg : GuildConfig) (user : String) : Nat :=
  ((dictGet cfg.warnings user).getD []).length

/-- The stored invariant of section 3 of the design: no user key maps to an
empty warning list. -/
def noEmpty (d : List (String × List WarningEntry)) : Bool :=
  d.all (fun kv => !kv.2.isEmpty)

/-- Parameters of the first of two concurrent warn invocations. -/
def warnParamsA : WarnParams :=
  { user := "42", moderator_id := 1, reason := "spam", now := 1000 }

/-- Parameters of the second of two concurrent warn invocations. -/
def warnParamsB : WarnParams :=
  { user := "42", moderator_id := 2, reason := "rude", now := 1000 }

/-- A warning recorded in some second of Unix time. -/
def dupIdEntryA : WarningEntry :=
  { moderator_id := 10, reason := "first", timestamp := 100, id := 100 }

/-- A second warning recorded within the same second, so with the same
timestamp-derived id (the collision section 9 of the design flags). -/
def dupIdEntryB : WarningEntry :=
  { moderator_id := 11, reason := "second", timestamp := 100, id := 100 }

/-- A guild whose user 1 carries two warnings with the same id. -/
def dupIdConfig : GuildConfig :=
  { default_config with warnings := [("1", [dupIdEntryA, dupIdEntryB])] }

/-- A guild whose user 1 carries exactly one warning, with id 100. -/
def singleEntryConfig : GuildConfig :=
  { default_config with warnings := [("1", [dupIdEntryA])] }

/-- An invocation whose author is the guild owner and also the target. -/
def modCtx0 : ModerationCtx :=
  { author := { userId := 5, topRolePos := 9 }, guildOwnerId := 5,
    botTopRolePos := 50, botOwnerIds := [77] }

/-- The target member of the invocation above: the author themselves. -/
def modMember0 : MemberM := { userId := 5, topRolePos := 9 }

/- ======================= Theorems ======================= -/

/-- Helper: a recognised unit always contributes a positive number of
seconds per unit. -/
theorem unitSeconds_pos {u : Char} {k : Nat} (h : unitSeconds u = some k) : 0 < k := by
  unfold unitSeconds at h
  split_ifs at h <;> (injection h with h; omega)

/-- Helper: no unit character is an ASCII digit. -/
theorem isUnitChar_not_digit {u : Char} (h : isUnitChar u = true) :
    u.isDigit = false := by
  unfold isUnitChar at h
  simp only [Bool.or_eq_true, decide_eq_true_eq] at h
  rcases h with ((h | h) | h) | h <;> subst h <;> decide

/-- Helper: takeWhile and dropWhile split a list made of a satisfying
prefix, a first failing element, and a tail. -/
theorem takeWhile_append_cons {p : Char → Bool} (ds : List Char) (u : Char)
    (tl : List Char) (hds : ∀ c ∈ ds, p c = true) (hu : p u = false) :
    (ds ++ u :: tl).takeWhile p = ds ∧ (ds ++ u :: tl).dropWhile p = u :: tl := by
  induction ds with
  | nil => simp [List.takeWhile_cons, List.dropWhile_cons, hu]
  | cons a as ih =>
      have ha : p a = true := hds a (by simp)
      have ih' := ih (fun c hc => hds c (by simp [hc]))
      simp [List.takeWhile_cons, List.dropWhile_cons, ha, ih'.1, ih'.2]

/-- Helper: a checklist run rejects nothing exactly when every condition
in it is false. -/
theorem firstFailing_eq_none {l : List (Bool × RejectReason)} :
    firstFailing l = none ↔ ∀ p ∈ l, p.1 = false := by
  induction l with
  | nil => simp [firstFailing]
  | cons x xs ih =>
      rcases x with ⟨c, r⟩
      cases c <;> simp [firstFailing, ih]

/-- Helper: after deleting a key, looking it up yields nothing. -/
theorem dictGet_dictDel {α : Type} (d : List (String × α)) (k : String) :
    dictGet (dictDel d k) k = none := by
  induction d with
  | nil => rfl
  | cons kv rest ih =>
      rcases kv with ⟨k', v⟩
      by_cases h : k' = k
      · simp [dictDel, h, ih]
      · simp [dictDel, dictGet, h, ih]

/-- Helper: deletion preserves any pointwise property of the entries. -/
theorem dictDel_all {α : Type} (p : String × α → Bool) (d : List (String × α))
    (k : String) (h : d.all p = true) : (dictDel d k).all p = true := by
  induction d with
  | nil => rfl
  | cons kv rest ih =>
      simp only [List.all_cons, Bool.and_eq_true] at h
      by_cases hk : kv.1 = k
      · simp only [dictDel, hk, if_pos rfl]
        exact ih h.2
      · rcases kv with ⟨k', v⟩
        simp only [dictDel, if_neg hk, List.all_cons, Bool.and_eq_true]
        exact ⟨h.1, ih h.2⟩

/-- Helper: assignment preserves any pointwise property of the entries as
long as the new pair satisfies it. -/
theorem dictSet_all {α : Type} (p : String × α → Bool) (d : List (String × α))
    (k : String) (v : α) (h : d.all p = true) (hv : p (k, v) = true) :
    (dictSet d k v).all p = true := by
  induction d with
  | nil => simp [dictSet, hv]
  | cons kv rest ih =>
      simp only [List.all_cons, Bool.and_eq_true] at h
      rcases kv with ⟨k', v'⟩
      by_cases hk : k' = k
      · simp [dictSet, hk, hv, h.2]
      · simp only [dictSet, if_neg hk, List.all_cons, Bool.and_eq_true]
        exact ⟨h.1, ih h.2⟩

/-- Helper: removal count of the id filter equals the number of records
whose id matches the target. -/
theorem length_sub_filter_ne (t : Int) (l : List WarningEntry) :
    l.length - (l.filter (fun w => w.id != t)).length =
      l.countP (fun w => w.id == t) := by
  induction l with
  | nil => rfl
  | cons w ws ih =>
      have hle : (ws.filter (fun w => w.id != t)).length ≤ ws.length :=
        List.length_filter_le _ _
      by_cases h : w.id = t
      · simp only [List.filter_cons, List.countP_cons, h, bne_self_eq_false,
          Bool.false_eq_true, if_false, beq_self_eq_true, if_true, List.length_cons]
        omega
      · have hbne : (w.id != t) = true := bne_iff_ne.mpr h
        have hbeq : (w.id == t) = false := by
          simp [beq_eq_false_iff_ne, h]
        simp only [List.filter_cons, List.countP_cons, hbne, if_true, hbeq,
          Bool.false_eq_true, if_false, List.length_cons]
        omega

/-- Helper: with pairwise distinct ids, at most one record matches any
target id. -/
theorem countP_id_le_one (t : Int) (l : List WarningEntry)
    (h : (l.map WarningEntry.id).Nodup) :
    l.countP (fun w => w.id == t) ≤ 1 := by
  induction l with
  | nil => simp
  | cons w ws ih =>
      simp only [List.map_cons, List.nodup_cons] at h
      by_cases hw : w.id = t
      · have hzero : ws.countP (fun w => w.id == t) = 0 := by
          rw [List.countP_eq_zero]
          intro a ha hat
          refine h.1 ?_
          have : a.id = t := by simpa using hat
          rw [← hw] at this
          exact this ▸ List.mem_map_of_mem WarningEntry.id ha
        simp [List.countP_cons, hw, hzero]
      · have hbeq : (w.id == t) = false := by simp [beq_eq_false_iff_ne, hw]
        simp only [List.countP_cons, hbeq, Bool.false_eq_true, if_false, Nat.add_zero]
        exact ih h.2

/-- C6 counterexample: a persisted document whose raw bytes are not valid
UTF-8 makes get_config raise an uncaught UnicodeDecodeError instead of
returning the default document, refuting the claim that every document
failing to parse degrades to defaults without raising. -/
theorem C6_unicode_counterexample :
    get_config ConfigReadResult.unicodeError = Except.error PyExn.unicodeDecodeError ∧
    get_config ConfigReadResult.unicodeError ≠ Except.ok default_config :=
  ⟨rfl, fun h => Except.noConfusion h⟩

/-- C6 amended: a missing file and a UTF-8-decodable document that fails
JSON parsing both degrade, without raising, to the identical default
document; a document whose bytes fail UTF-8 decoding instead raises an
uncaught UnicodeDecodeError, because only FileNotFoundError and
json.JSONDecodeError are caught. -/
theorem C6_default_fallback :
    get_config ConfigReadResult.fileMissing = Except.ok default_config ∧
    get_config ConfigReadResult.decodeError = Except.ok default_config ∧
    get_config ConfigReadResult.fileMissing = get_config ConfigReadResult.decodeError ∧
    get_config ConfigReadResult.unicodeError = Except.error PyExn.unicodeDecodeError :=
  ⟨rfl, rfl, rfl, rfl⟩

/-- C10: the default document enables warning auto-moderation out of the
box (threshold 3, timeout action, one hour), with null channel and role
settings, the default welcome and leave templates, and an empty warnings
map; three warnings against a user of an unconfigured guild therefore
trigger the automatic action, with the timeout duration parsing to one
hour. -/
theorem C10_default_enables_automod :
    default_config.warn_threshold = 3 ∧
    default_config.warn_action = "timeout" ∧
    default_config.warn_timeout_duration = "1h" ∧
    default_config.log_channel = none ∧
    default_config.welcome_channel = none ∧
    default_config.leave_channel = none ∧
    default_config.verified_role = none ∧
    default_config.mod_log_channel = none ∧
    default_config.welcome_message = "Welcome \x7buser.mention\x7d to \x7bserver.name\x7d!" ∧
    default_config.leave_message = "\x7buser.name\x7d has left \x7bserver.name\x7d." ∧
    default_config.warnings = [] ∧
    get_config ConfigReadResult.fileMissing = Except.ok default_config ∧
    (let s1 := warnCommand default_config "7" 5 "spam" 100
     let s2 := warnCommand s1.1 "7" 5 "spam" 101
     let s3 := warnCommand s2.1 "7" 5 "spam" 102
     s3.2.1 = 3 ∧ s3.2.2 = true) ∧
    parse_duration "1h" = some 3600 :=
  ⟨rfl, rfl, rfl, rfl, rfl, rfl, rfl, rfl, rfl, rfl, rfl, rfl, by decide, by decide⟩

/-- Helper: looking up a key right after assigning it yields the assigned
value. -/
theorem dictGet_dictSet_self {α : Type} (d : List (String × α)) (k : String) (v : α) :
    dictGet (dictSet d k v) k = some v := by
  induction d with
  | nil => simp [dictSet, dictGet]
  | cons kv rest ih =>
      rcases kv with ⟨k', v'⟩
      by_cases h : k' = k
      · simp [dictSet, dictGet, h]
      · simp [dictSet, dictGet, h, ih]

/-- Helper: adding a warning increments the stored count of that user by
exactly one. -/
theorem warningCount_addWarning (cfg : GuildConfig) (u : String) (m : Nat)
    (r : String) (n : Int) :
    warningCount (addWarning cfg u m r n).1 u = warningCount cfg u + 1 := by
  simp [warningCount, addWarning, dictGet_dictSet_self]

/-- Helper: along every schedule, the stored count for the user equals one
per completed warn invocation, starting from a state where it already
does. -/
theorem runWarnPair_count_inv :
    ∀ (sched : List Bool) (s : WarnPairState),
      warningCount s.store "42" =
        ((if s.taskA.done then 1 else 0) + (if s.taskB.done then 1 else 0)) →
      warningCount (runWarnPair warnParamsA warnParamsB sched s).store "42" =
        ((if (runWarnPair warnParamsA warnParamsB sched s).taskA.done then 1 else 0) +
         (if (runWarnPair warnParamsA warnParamsB sched s).taskB.done then 1 else 0)) := by
  intro sched
  induction sched with
  | nil => intro s h; simpa [runWarnPair] using h
  | cons b rest ih =>
      intro s h
      have hstep : runWarnPair warnParamsA warnParamsB (b :: rest) s =
          runWarnPair warnParamsA warnParamsB rest
            (warnPairStep warnParamsA warnParamsB s b) := by
        simp [runWarnPair]
      rw [hstep]
      refine ih _ ?_
      cases b <;> by_cases hA : s.taskA.done <;> by_cases hB : s.taskB.done <;>
        simp [warnPairStep, warnTaskStep, hA, hB, warnParamsA, warnParamsB,
          warningCount_addWarning, h]

/-- C1: two concurrently issued warn read-modify-write sequences for the
same guild and user are fully serialised: no await between warn's
get_config and save_config can actually suspend, so each sequence runs
atomically relative to the other, and for every interleaving of the two
invocations in which both complete, the user's final warning count is
exactly two - no lost update. -/
theorem C1_warn_serialized :
    ∀ sched : List Bool,
      (runWarnPair warnParamsA warnParamsB sched
        (initialWarnPair default_config)).taskA.done = true →
      (runWarnPair warnParamsA warnParamsB sched
        (initialWarnPair default_config)).taskB.done = true →
      warningCount (runWarnPair warnParamsA warnParamsB sched
        (initialWarnPair default_config)).store "42" = 2 := by
  intro sched hA hB
  have h := runWarnPair_count_inv sched (initialWarnPair default_config) (by decide)
  simpa [hA, hB] using h

/-- C1 witness: the schedule that runs invocation A then invocation B
completes both and leaves the user with exactly two warnings. -/
theorem C1_warn_serialized_witness :
    warningCount (runWarnPair warnParamsA warnParamsB [false, true]
      (initialWarnPair default_config)).store "42" = 2 :=
  C1_warn_serialized [false, true] (by decide) (by decide)

/-- C2 counterexample: when two of the user's warning records carry the
same id (possible for two warnings within one Unix second), clearing by
that id removes both records, so the removal count is two, refuting the
claim that it is always zero or one. -/
theorem C2_duplicate_id_counterexample :
    (clearwarns dupIdConfig "1" (WarnRef.byId 100)).2 = ClearResult.clearedId 2 ∧
    ¬((2 : Nat) = 0 ∨ (2 : Nat) = 1) := by
  decide

/-- C2 amended: clearing by a numeric id removes every record whose id
equals the target; the reported count is the number of matching records,
which is at most one whenever the user's warning ids are pairwise
distinct. -/
theorem C2_removed_count_amended :
    ∀ (cfg : GuildConfig) (user : String) (t : Int),
      ((dictGet cfg.warnings user).getD [] ≠ [] →
        (clearwarns cfg user (WarnRef.byId t)).2 =
          (if ((dictGet cfg.warnings user).getD []).countP (fun w => w.id == t) = 0
           then ClearResult.notFound t
           else ClearResult.clearedId
             (((dictGet cfg.warnings user).getD []).countP (fun w => w.id == t)))) ∧
      ((((dictGet cfg.warnings user).getD []).map WarningEntry.id).Nodup →
        ((dictGet cfg.warnings user).getD []).countP (fun w => w.id == t) ≤ 1) := by
  intro cfg user t
  refine ⟨?_, countP_id_le_one t _⟩
  intro hne
  have hcnt := length_sub_filter_ne t ((dictGet cfg.warnings user).getD [])
  unfold clearwarns
  rw [if_neg hne]
  simp only []
  by_cases hz : ((dictGet cfg.warnings user).getD []).countP (fun w => w.id == t) = 0
  · rw [if_pos hz]
    rw [hz] at hcnt
    rw [if_neg (by omega : ¬ 0 < ((dictGet cfg.warnings user).getD []).length -
      (((dictGet cfg.warnings user).getD []).filter (fun w => w.id != t)).length)]
  · rw [if_neg hz]
    rw [if_pos (by omega : 0 < ((dictGet cfg.warnings user).getD []).length -
      (((dictGet cfg.warnings user).getD []).filter (fun w => w.id != t)).length)]
    split_ifs <;> simp [hcnt]

/-- C2 witness: instantiating the amended statement on the guild with two
same-id warnings yields the removal count two. -/
theorem C2_removed_count_witness :
    (clearwarns dupIdConfig "1" (WarnRef.byId 100)).2 = ClearResult.clearedId 2 ∧
    (((dictGet singleEntryConfig.warnings "1").getD []).map WarningEntry.id).Nodup ∧
    ((dictGet singleEntryConfig.warnings "1").getD []).countP (fun w => w.id == 100) ≤ 1 := by
  refine ⟨?_, by decide, (C2_removed_count_amended singleEntryConfig "1" 100).2 (by decide)⟩
  have h := (C2_removed_count_amended dupIdConfig "1" 100).1 (by decide)
  rw [h]
  decide

/-- C3 counterexample: a trailing newline is not rejected: the end anchor
of the regex also matches just before a final newline, so the parser
accepts the string of digit five, unit m and a newline, refuting the
claim that any trailing character is rejected. -/
theorem C3_trailing_newline_counterexample :
    parse_duration "5m\n" = some 300 ∧ durationFormatAccepted "5m\n" = true := by
  decide

/-- C3 amended: for any digit class containing no unit letter - in
particular the Unicode decimal-digit class Python's regex engine uses,
which is wider than ASCII - the format gate accepts exactly the strings
whose lowercased character sequence is one nonempty run of class digits,
then one unit letter from s m h d, then either nothing or one single
trailing newline; any other surrounding or trailing character is
rejected. -/
theorem C3_grammar_amended :
    (∀ dig : Char → Bool, (∀ u, isUnitChar u = true → dig u = false) →
       ∀ cs : List Char,
         (matchDurationRegex dig cs).isSome = true ↔
           ∃ ds u tail, cs = ds ++ u :: tail ∧ ds ≠ [] ∧
             (∀ c ∈ ds, dig c = true) ∧ isUnitChar u = true ∧
             (tail = [] ∨ tail = ['\n'])) ∧
    (∀ s : String,
       durationFormatAccepted s =
         (matchDurationRegex Char.isDigit (s.data.map lowerChar)).isSome) := by
  refine ⟨?_, fun s => rfl⟩
  intro dig hdisj cs
  constructor
  · intro h
    simp only [matchDurationRegex] at h
    split at h
    · simp at h
    · rename_i u tail hd
      split_ifs at h with h1 h2
      · simp at h
      · refine ⟨cs.takeWhile dig, u, tail, ?_, ?_, ?_, ?_, ?_⟩
        · conv_lhs => rw [← List.takeWhile_append_dropWhile (p := dig) (l := cs)]
          rw [hd]
        · intro hnil
          rw [hnil] at h1
          simp at h1
        · intro c hc
          exact List.mem_takeWhile_imp hc
        · exact (Bool.and_eq_true _ _ |>.mp h2).1
        · have h3 := (Bool.and_eq_true _ _ |>.mp h2).2
          rcases Bool.or_eq_true _ _ |>.mp h3 with h4 | h4
          · left
            exact List.isEmpty_iff.mp h4
          · right
            exact of_decide_eq_true h4
      · simp at h
  · rintro ⟨ds, u, tail, rfl, hne, hdig, hu, htail⟩
    have hu' : dig u = false := hdisj u hu
    obtain ⟨ht, hdrp⟩ := takeWhile_append_cons ds u tail hdig hu'
    simp only [matchDurationRegex, ht, hdrp]
    have hem : ds.isEmpty = false := by
      cases ds
      · exact absurd rfl hne
      · rfl
    rcases htail with h4 | h4 <;>
      simp [hem, hu, h4]

/-- C3 witness: instantiating the amended grammar at the ASCII digit
class (no unit letter is a digit) on the accepted string of digit five,
unit m and a trailing newline produces its decomposition. -/
theorem C3_grammar_witness :
    ∃ ds u tail, ['5', 'm', '\n'] = ds ++ u :: tail ∧ ds ≠ [] ∧
      (∀ c ∈ ds, Char.isDigit c = true) ∧ isUnitChar u = true ∧
      (tail = [] ∨ tail = ['\n']) :=
  (C3_grammar_amended.1 Char.isDigit (fun u hu => isUnitChar_not_digit hu)
    ['5', 'm', '\n']).mp (by decide)

/-- C4: the automatic action fires right after a warning is recorded
exactly when the threshold is positive, the new count has reached it, and
the lowercased configured action is not none; with the default threshold
of three, the third warning triggers and the fourth (count four, still at
or above three) triggers again rather than being suppressed. -/
theorem C4_auto_action_trigger :
    (∀ (cfg : GuildConfig) (n : Nat),
        autoActionTriggered cfg n = true ↔
          (0 < cfg.warn_threshold ∧ cfg.warn_threshold ≤ (n : Int) ∧
           lowerStr cfg.warn_action ≠ "none")) ∧
    (let s1 := warnCommand default_config "7" 5 "spam" 100
     let s2 := warnCommand s1.1 "7" 5 "spam" 101
     let s3 := warnCommand s2.1 "7" 5 "spam" 102
     let s4 := warnCommand s3.1 "7" 5 "spam" 103
     s1.2.1 = 1 ∧ s1.2.2 = false ∧ s2.2.1 = 2 ∧ s2.2.2 = false ∧
     s3.2.1 = 3 ∧ s3.2.2 = true ∧ s4.2.1 = 4 ∧ s4.2.2 = true) := by
  constructor
  · intro cfg n
    simp [autoActionTriggered, and_assoc]
  · decide

/-- C4 witness: the trigger condition holds for the default configuration
at count three. -/
theorem C4_auto_action_trigger_witness :
    0 < default_config.warn_threshold ∧
    default_config.warn_threshold ≤ ((3 : Nat) : Int) ∧
    lowerStr default_config.warn_action ≠ "none" :=
  (C4_auto_action_trigger.1 default_config 3).mp (by decide)

/-- C5: every successfully parsed duration is positive and at most 28 days
of seconds (never clamped), the 28-day boundary parses while 29 days is
rejected, and the zero, negative, unitless, bad-unit and padded inputs
are all rejected. -/
theorem C5_duration_bounds :
    (∀ (s : String) (d : Nat), parse_duration s = some d → 0 < d ∧ d ≤ 2419200) ∧
    parse_duration "28d" = some 2419200 ∧
    parse_duration "29d" = none ∧
    parse_duration "0m" = none ∧
    parse_duration "-5m" = none ∧
    parse_duration "5" = none ∧
    parse_duration "5x" = none ∧
    parse_duration " 5m" = none := by
  refine ⟨?_, by decide, by decide, by decide, by decide, by decide, by decide, by decide⟩
  intro s d h
  simp only [parse_duration] at h
  split at h
  · exact Option.noConfusion h
  · rename_i ds u tail hm
    split_ifs at h with hv
    split at h
    · exact Option.noConfusion h
    · rename_i k hk
      split_ifs at h with hb
      injection h with h
      subst h
      have hkpos := unitSeconds_pos hk
      have hvpos : 0 < digitsToNat ds := by omega
      exact ⟨Nat.mul_pos hvpos hkpos, by omega⟩

/-- C5 witness: the bound statement instantiated at the boundary input of
28 days. -/
theorem C5_duration_bounds_witness :
    0 < 2419200 ∧ 2419200 ≤ 2419200 :=
  C5_duration_bounds.1 "28d" 2419200 (by decide)

/-- C7: clearing warnings preserves the no-empty-entry invariant of the
warnings mapping, and whenever a clear (of all warnings, or by an id that
matches every remaining record) empties a user's sequence, the user's key
is deleted outright, never left as an empty sequence. -/
theorem C7_absent_key_invariant :
    ∀ (cfg : GuildConfig) (user : String),
      (∀ ref, noEmpty cfg.warnings = true →
        noEmpty ((clearwarns cfg user ref).1).warnings = true) ∧
      ((dictGet cfg.warnings user).getD [] ≠ [] →
        dictGet ((clearwarns cfg user WarnRef.all).1).warnings user = none) ∧
      (∀ t, (dictGet cfg.warnings user).getD [] ≠ [] →
        (∀ w ∈ (dictGet cfg.warnings user).getD [], w.id = t) →
        dictGet ((clearwarns cfg user (WarnRef.byId t)).1).warnings user = none) := by
  intro cfg user
  refine ⟨?_, ?_, ?_⟩
  · intro ref hno
    by_cases hne : (dictGet cfg.warnings user).getD [] = []
    · simp only [clearwarns, if_pos hne]
      exact hno
    · cases ref with
      | all =>
          simp only [clearwarns, if_neg hne]
          exact dictDel_all _ _ _ hno
      | byId t =>
          simp only [clearwarns, if_neg hne]
          by_cases hc : 0 < ((dictGet cfg.warnings user).getD []).length -
              (((dictGet cfg.warnings user).getD []).filter (fun w => w.id != t)).length
          · rw [if_pos hc]
            by_cases hnil :
                ((dictGet cfg.warnings user).getD []).filter (fun w => w.id != t) = []
            · rw [if_pos hnil]
              exact dictDel_all _ _ _ hno
            · rw [if_neg hnil]
              refine dictSet_all _ _ _ _ hno ?_
              simp [List.isEmpty_iff, hnil]
          · rw [if_neg hc]
            exact hno
      | invalid =>
          simp only [clearwarns, if_neg hne]
          exact hno
  · intro hne
    simp only [clearwarns, if_neg hne]
    exact dictGet_dictDel _ _
  · intro t hne hall
    have hfil : ((dictGet cfg.warnings user).getD []).filter (fun w => w.id != t) = [] := by
      rw [List.filter_eq_nil_iff]
      intro a ha
      simp [hall a ha]
    have hlen : 0 < ((dictGet cfg.warnings user).getD []).length :=
      List.length_pos.mpr hne
    simp only [clearwarns, if_neg hne]
    rw [hfil]
    rw [if_pos (by simpa using hlen)]
    rw [if_pos rfl]
    exact dictGet_dictDel _ _

/-- C7 witness: on a guild whose user 1 holds one warning, clearing all
warnings and clearing by the matching id both leave the user's key
absent, and the invariant survives the clear. -/
theorem C7_absent_key_invariant_witness :
    dictGet ((clearwarns singleEntryConfig "1" WarnRef.all).1).warnings "1" = none ∧
    dictGet ((clearwarns singleEntryConfig "1" (WarnRef.byId 100)).1).warnings "1" = none ∧
    noEmpty ((clearwarns singleEntryConfig "1" WarnRef.all).1).warnings = true :=
  ⟨(C7_absent_key_invariant singleEntryConfig "1").2.1 (by decide),
   (C7_absent_key_invariant singleEntryConfig "1").2.2 100 (by decide) (by decide),
   (C7_absent_key_invariant singleEntryConfig "1").1 WarnRef.all (by decide)⟩

/-- C8: the eligibility check equals running its four condition-reason
pairs in source order with distinct reasons; a target equal to the author
is rejected for self-moderation even when the author is the guild owner;
and permuting the checks never changes the overall accept or reject
outcome. -/
theorem C8_eligibility_order :
    ∀ (ctx : ModerationCtx) (member : MemberM),
      checkModerationPermissions ctx member =
        firstFailing (moderationChecklist ctx member) ∧
      (moderationChecklist ctx member).map Prod.snd =
        [RejectReason.selfModeration, RejectReason.botOwnerTarget,
         RejectReason.botHierarchy, RejectReason.moderatorHierarchy] ∧
      ((moderationChecklist ctx member).map Prod.snd).Nodup ∧
      (member.userId = ctx.author.userId →
        checkModerationPermissions ctx member = some RejectReason.selfModeration) ∧
      (∀ l, (moderationChecklist ctx member).Perm l →
        (firstFailing l = none ↔
         firstFailing (moderationChecklist ctx member) = none)) := by
  intro ctx member
  refine ⟨?_, by simp [moderationChecklist], by simp [moderationChecklist], ?_, ?_⟩
  · by_cases h1 : member.userId = ctx.author.userId <;>
    by_cases h2 : ctx.botOwnerIds.contains member.userId <;>
    by_cases h3 : ctx.botTopRolePos ≤ member.topRolePos <;>
    by_cases h4a : ctx.author.userId = ctx.guildOwnerId <;>
    by_cases h4b : ctx.author.topRolePos ≤ member.topRolePos <;>
    simp [checkModerationPermissions, moderationChecklist, firstFailing,
      h1, h2, h3, h4a, h4b]
  · intro h
    simp [checkModerationPermissions, h]
  · intro l hperm
    rw [firstFailing_eq_none, firstFailing_eq_none]
    constructor
    · intro hall p hp
      exact hall p (hperm.mem_iff.mp hp)
    · intro hall p hp
      exact hall p (hperm.mem_iff.mpr hp)

/-- C8 witness: for an author who is the guild owner targeting themselves,
the rejection reason is self-moderation, and reversing the checklist
preserves the accept-reject outcome. -/
theorem C8_eligibility_order_witness :
    checkModerationPermissions modCtx0 modMember0 = some RejectReason.selfModeration ∧
    (firstFailing ((moderationChecklist modCtx0 modMember0).reverse) = none ↔
      firstFailing (moderationChecklist modCtx0 modMember0) = none) :=
  ⟨(C8_eligibility_order modCtx0 modMember0).2.2.2.1 rfl,
   (C8_eligibility_order modCtx0 modMember0).2.2.2.2 _ (List.reverse_perm _).symm⟩

/-- C9: clearing by a numeric id that matches none of the user's warnings
is a no-op reported distinctly as not-found: the configuration is
returned unchanged and save_config is not called. -/
theorem C9_clear_not_found :
    ∀ (cfg : GuildConfig) (user : String) (t : Int),
      (dictGet cfg.warnings user).getD [] ≠ [] →
      (∀ w ∈ (dictGet cfg.warnings user).getD [], w.id ≠ t) →
      clearwarns cfg user (WarnRef.byId t) = (cfg, ClearResult.notFound t) ∧
      clearwarnsSaves (clearwarns cfg user (WarnRef.byId t)).2 = false := by
  intro cfg user t hne hnm
  have hfil : ((dictGet cfg.warnings user).getD []).filter (fun w => w.id != t) =
      (dictGet cfg.warnings user).getD [] :=
    List.filter_eq_self.mpr (fun a ha => bne_iff_ne.mpr (hnm a ha))
  have h1 : clearwarns cfg user (WarnRef.byId t) = (cfg, ClearResult.notFound t) := by
    simp only [clearwarns, if_neg hne]
    rw [hfil]
    simp
  exact ⟨h1, by rw [h1]; rfl⟩

/-- C9 witness: on a guild whose user 1 holds one warning with id 100,
clearing id 200 reports not-found, changes nothing and does not save. -/
theorem C9_clear_not_found_witness :
    clearwarns singleEntryConfig "1" (WarnRef.byId 200) =
      (singleEntryConfig, ClearResult.notFound 200) ∧
    clearwarnsSaves (clearwarns singleEntryConfig "1" (WarnRef.byId 200)).2 = false :=
  C9_clear_not_found singleEntryConfig "1" 200 (by decide) (by decide)

end MythicBot
